import Mathlib

/-!
Shallow embedding of `src/cam/capture_script.cpp` (class `CaptureScript`)
from the libcamera `cam` utility, together with theorems about the claims
of the specification.

External collaborators are modelled at their interface boundary:
* the libyaml event source is modelled as a list of typed events
  (`YEvent`); `yaml_parser_parse` failing or the stream being exhausted is
  modelled as the event list being empty;
* source positions (line/column) carried by events are omitted: no claim
  depends on them, only on which diagnostic is emitted;
* the libc numeric conversions `strtol`/`strtoll`/`atoi`/`strtof` are
  external functions, modelled from their documented contract (skip
  leading whitespace, optional sign, longest digit prefix, 0 when no
  digits, clamping to the `long` range on overflow); `strtof` is modelled
  with exact rational arithmetic — IEEE-754 rounding of the decimal text
  to a 32-bit float is outside the embedding;
* writes to `std::cerr` are modelled as an accumulated list of
  diagnostics (`Diag`).
-/

namespace CaptureScript

/-- The yaml event kinds of `yaml_event_type_t` that the script parser
distinguishes (`YAML_NO_EVENT` is modelled by passing `none` as the
expected kind to `nextEvent`). -/
inductive YEventKind where
  | streamStart
  | streamEnd
  | documentStart
  | documentEnd
  | mappingStart
  | mappingEnd
  | sequenceStart
  | sequenceEnd
  | scalar
  | aliasEvent
deriving DecidableEq, Repr

/-- A yaml event: its kind, and for scalar events the decoded text
(`event->data.scalar.value` of length `event->data.scalar.length`). -/
inductive YEvent where
  | streamStart
  | streamEnd
  | documentStart
  | documentEnd
  | mappingStart
  | mappingEnd
  | sequenceStart
  | sequenceEnd
  | scalar (value : String)
  | aliasEvent
deriving DecidableEq, Repr

/-- The kind of an event. -/
def YEvent.kind : YEvent → YEventKind
  | .streamStart => .streamStart
  | .streamEnd => .streamEnd
  | .documentStart => .documentStart
  | .documentEnd => .documentEnd
  | .mappingStart => .mappingStart
  | .mappingEnd => .mappingEnd
  | .sequenceStart => .sequenceStart
  | .sequenceEnd => .sequenceEnd
  | .scalar _ => .scalar
  | .aliasEvent => .aliasEvent

/-- The control value types of libcamera's `enum ControlType`. -/
inductive ControlType where
  | none
  | bool
  | byte
  | int32
  | int64
  | float
  | string
  | rectangle
  | size
deriving DecidableEq, Repr

/-- `ControlValue`: tagged union of the decoded value of a control.
The numeric payloads keep the machine ranges explicit: `byte` carries a
`Nat` (< 256 by construction), `int32`/`int64` carry wrapped `Int`s, and
`float` carries the exact rational value parsed from the decimal text
(IEEE rounding is outside the embedding, see the file comment). -/
inductive ControlValue where
  | empty
  | bool (b : Bool)
  | byte (v : Nat)
  | int32 (v : Int)
  | int64 (v : Int)
  | float (v : Rat)
  | string (s : String)
deriving DecidableEq, Repr

/-- `ControlId`: external identity of a control — numeric id, name and
declared type (`ControlId::id()`, `ControlId::name()`,
`ControlId::type()`). -/
structure ControlId where
  id : Nat
  name : String
  type : ControlType
deriving DecidableEq, Repr

/-- The `controls_` member: `std::map<std::string, const ControlId *>`,
modelled as an association list from control name to identity. -/
abbrev Catalog := List (String × ControlId)

/-- `std::map::find` on the name catalog: the binding of `name`, if any. -/
def lookupName (name : String) : Catalog → Option ControlId
  | [] => Option.none
  | (n, cid) :: rest => if n = name then some cid else lookupName name rest

/-- A `ControlList`: association list from numeric control id to value
(`ControlList::set(id, value)` overwrites an existing binding). -/
abbrev ControlList := List (Nat × ControlValue)

/-- The `frameControls_` member: `std::map<unsigned int, ControlList>`,
modelled as an association list from frame index to control list. -/
abbrev FrameTable := List (Nat × ControlList)

/-- Insert-or-overwrite into an association list keyed by `Nat`
(`std::map::operator[]` assignment). -/
def setKey {α : Type} (k : Nat) (v : α) : List (Nat × α) → List (Nat × α)
  | [] => [(k, v)]
  | (k', v') :: rest =>
      if k' = k then (k, v) :: rest else (k', v') :: setKey k v rest

/-- Lookup in an association list keyed by `Nat` (`std::map::find`). -/
def lookupKey {α : Type} (k : Nat) : List (Nat × α) → Option α
  | [] => Option.none
  | (k', v) :: rest => if k' = k then some v else lookupKey k rest

/-- `ControlList::set(id, value)`. -/
def controlListSet (l : ControlList) (id : Nat) (v : ControlValue) :
    ControlList :=
  setKey id v l

/-- `CaptureScript::frameControls(frame)`: the control list stored for
`frame`, or the function-local `static ControlList controls{}` (empty)
when the frame has no entry. -/
def frameControls (table : FrameTable) (frame : Nat) : ControlList :=
  match lookupKey frame table with
  | some controls => controls
  | Option.none => []

/-! ### libc numeric conversions (external, modelled from their contract) -/

/-- Value of a list of decimal digit characters. -/
def digitsToNat (ds : List Char) : Nat :=
  ds.foldl (fun a c => a * 10 + (c.toNat - 48)) 0

/-- Sign and digit-prefix part shared by the integer conversions: after
the caller has dropped leading whitespace, read an optional sign and the
longest prefix of decimal digits; no digits yields 0. -/
def intCore (cs : List Char) : Int :=
  match cs with
  | [] => 0
  | c :: rest =>
      if c = '-' then -(digitsToNat (rest.takeWhile Char.isDigit) : Int)
      else if c = '+' then (digitsToNat (rest.takeWhile Char.isDigit) : Int)
      else (digitsToNat ((c :: rest).takeWhile Char.isDigit) : Int)

/-- `strtol(s, NULL, 10)` on LP64: skip leading whitespace, optional
sign, longest digit prefix, clamped to `[LONG_MIN, LONG_MAX]`. -/
def strtol (s : String) : Int :=
  max (-(2 ^ 63)) (min (2 ^ 63 - 1) (intCore (s.toList.dropWhile Char.isWhitespace)))

/-- `strtoll(s, NULL, 10)`: identical to `strtol` on LP64. -/
def strtoll (s : String) : Int :=
  strtol s

/-- Wrap an integer into the `int32_t` range (conversion of a wider
integer to `int32_t`, which gcc defines as wrapping). -/
def wrap32 (v : Int) : Int :=
  (v + 2 ^ 31) % 2 ^ 32 - 2 ^ 31

/-- `atoi(s)`: `(int)strtol(s, NULL, 10)`. -/
def atoi (s : String) : Int :=
  wrap32 (strtol s)

/-- Fractional value of the digits after the decimal point. -/
def fracVal (ds : List Char) : Rat :=
  ds.foldr (fun c acc => (acc + ((c.toNat - 48 : Nat) : Rat)) / 10) 0

/-- The part of a float text after the integer digit prefix `ip`: an
optional point followed by the longest further digit prefix; no digits
at all (in `ip` and after the point) yields 0. -/
def dotPart (ip : List Char) : List Char → Rat
  | [] => if ip = [] then 0 else (digitsToNat ip : Rat)
  | c :: rest =>
      if c = '.' then
        (if ip = [] ∧ rest.takeWhile Char.isDigit = [] then 0
         else (digitsToNat ip : Rat) + fracVal (rest.takeWhile Char.isDigit))
      else if ip = [] then 0 else (digitsToNat ip : Rat)

/-- Unsigned float magnitude: digit prefix, optional point, digit
prefix. -/
def floatMag (cs : List Char) : Rat :=
  dotPart (cs.takeWhile Char.isDigit) (cs.dropWhile Char.isDigit)

/-- Sign, integer digits and optional fractional digits shared by the
float conversion: after leading whitespace has been dropped, read an
optional sign, the longest digit prefix, and after a `.` the longest
further digit prefix; no digits at all yields 0. -/
def floatCore (cs : List Char) : Rat :=
  match cs with
  | [] => 0
  | c :: rest =>
      if c = '-' then -(floatMag rest)
      else if c = '+' then floatMag rest
      else floatMag (c :: rest)

/-- `strtof(s, NULL)` restricted to plain decimal text, with exact
rational arithmetic in place of IEEE-754 rounding. -/
def strtofQ (s : String) : Rat :=
  floatCore (s.toList.dropWhile Char.isWhitespace)

/-! ### Diagnostics (`std::cerr` output) -/

/-- One diagnostic line written to `std::cerr`. -/
inductive Diag where
  | expectedEvent (expected actual : YEventKind)
  | unsupportedSection (s : String)
  | unsupportedControl (name : String)
  | unpackFailure (repr typeName ctrlName : String)
deriving DecidableEq, Repr

/-- The `typeNames` table of `CaptureScript::unpackFailure`. -/
def controlTypeName : ControlType → String
  | .none => "none"
  | .bool => "bool"
  | .byte => "byte"
  | .int32 => "int32"
  | .int64 => "int64"
  | .float => "float"
  | .string => "string"
  | .rectangle => "Rectangle"
  | .size => "Size"

/-- `CaptureScript::unpackFailure(id, repr)`: the diagnostic it writes. -/
def unpackFailure (id : ControlId) (repr : String) : Diag :=
  .unpackFailure repr (controlTypeName id.type) id.name

/-- `CaptureScript::unpackControl(id, repr)`: decode `repr` according to
`id->type()`. Returns the decoded value together with the diagnostic the
source's call to `unpackFailure` writes to `std::cerr`, when any. -/
def unpackControl (id : ControlId) (repr : String) :
    ControlValue × Option Diag :=
  match id.type with
  | .none => (.empty, Option.none)
  | .bool =>
      if repr = "true" then (.bool true, Option.none)
      else if repr = "false" then (.bool false, Option.none)
      else (.empty, some (unpackFailure id repr))
  | .byte => (.byte ((strtol repr % 256).toNat), Option.none)
  | .int32 => (.int32 (wrap32 (strtol repr)), Option.none)
  | .int64 => (.int64 (strtoll repr), Option.none)
  | .float => (.float (strtofQ repr), Option.none)
  | .string => (.string repr, Option.none)
  | .rectangle => (.empty, Option.none)
  | .size => (.empty, Option.none)

/-! ### The script parser state machine

The member state of a `CaptureScript` during `parseScript` and the
functions it calls: the remaining event stream of `parser_`, the
diagnostics written to `std::cerr` so far, and the `frameControls_`
table.  Each source function returning `int` (0 or `-EINVAL`) is
modelled as returning `Bool` (`true` for 0) together with the updated
state.  The `while (1)` loops are modelled as recursion on an explicit
fuel argument; the top-level entry point supplies fuel exceeding the
stream length, which every loop iteration shrinks by at least one
event. -/

/-- The mutable state threaded through the parse. -/
structure PState where
  events : List YEvent
  diags : List Diag
  frameControls : FrameTable
deriving DecidableEq, Repr

/-- Append a diagnostic to the `std::cerr` transcript. -/
def addDiag (d : Diag) (st : PState) : PState :=
  { st with diags := st.diags ++ [d] }

/-- `CaptureScript::checkEvent(event, expectedType)`: `true` when the
kinds agree, otherwise writes the expected/actual diagnostic. -/
def checkEvent (e : YEvent) (expected : YEventKind) (st : PState) :
    Bool × PState :=
  if e.kind = expected then (true, st)
  else (false, addDiag (.expectedEvent expected e.kind) st)

/-- `CaptureScript::nextEvent(expectedType)`: pull the next event from
the stream; `yaml_parser_parse` failure (modelled: stream exhausted)
yields `none`, and when an expected kind is given a mismatching event is
consumed but `none` is returned (with the `checkEvent` diagnostic). -/
def nextEvent (expected : Option YEventKind) (st : PState) :
    Option YEvent × PState :=
  match st.events with
  | [] => (Option.none, st)
  | e :: rest =>
      let st := { st with events := rest }
      match expected with
      | Option.none => (some e, st)
      | some k =>
          match checkEvent e k st with
          | (true, st) => (some e, st)
          | (false, st) => (Option.none, st)

/-- `CaptureScript::eventScalarValue(event)`: the text of a scalar
event.  The source reads the scalar member of the event union, which is
undefined for non-scalar events; the model returns `""` there. -/
def eventScalarValue : YEvent → String
  | .scalar v => v
  | _ => ""

/-- `CaptureScript::parseScalar()`: pull a scalar event and return its
text, or `""` when the pull fails. -/
def parseScalar (st : PState) : String × PState :=
  match nextEvent (some .scalar) st with
  | (Option.none, st) => ("", st)
  | (some e, st) => (eventScalarValue e, st)

/-- `CaptureScript::parseControl(event, controls)`: `event` holds the
control name; look it up in `controls_`, pull the value scalar, decode
it and store it in `controls`. -/
def parseControl (catalog : Catalog) (e : YEvent) (controls : ControlList)
    (st : PState) : Bool × ControlList × PState :=
  let name := eventScalarValue e
  if name = "" then (false, controls, st)
  else
    match lookupName name catalog with
    | Option.none => (false, controls, addDiag (.unsupportedControl name) st)
    | some controlId =>
        match parseScalar st with
        | (value, st) =>
            if value = "" then (false, controls, st)
            else
              match unpackControl controlId value with
              | (val, d) =>
                  let st := match d with
                    | some d => addDiag d st
                    | Option.none => st
                  (true, controlListSet controls controlId.id val, st)

/-- The `while (1)` loop of `CaptureScript::parseFrame`: accumulate
controls until the controls mapping's `mapping-end`. -/
def parseFrameLoop (catalog : Catalog) (fuel : Nat) (controls : ControlList)
    (st : PState) : Bool × ControlList × PState :=
  match fuel with
  | 0 => (false, controls, st)
  | fuel + 1 =>
      match nextEvent Option.none st with
      | (Option.none, st) => (false, controls, st)
      | (some e, st) =>
          if e.kind = .mappingEnd then (true, controls, st)
          else
            match parseControl catalog e controls st with
            | (true, controls, st) => parseFrameLoop catalog fuel controls st
            | (false, controls, st) => (false, controls, st)

/-- `CaptureScript::parseFrame(event)`: `event` must be the frame
mapping's `mapping-start`; read the frame-index scalar, the controls
mapping, store the accumulated `ControlList` at the frame index
(`frameControls_[frameId] = ...`), then expect the frame mapping's
closing `mapping-end`. -/
def parseFrame (catalog : Catalog) (fuel : Nat) (e : YEvent) (st : PState) :
    Bool × PState :=
  match checkEvent e .mappingStart st with
  | (false, st) => (false, st)
  | (true, st) =>
      match parseScalar st with
      | (key, st) =>
          if key = "" then (false, st)
          else
            let frameId := (atoi key % 2 ^ 32).toNat
            match nextEvent (some .mappingStart) st with
            | (Option.none, st) => (false, st)
            | (some _, st) =>
                match parseFrameLoop catalog fuel [] st with
                | (false, _, st) => (false, st)
                | (true, controls, st) =>
                    let st := { st with
                      frameControls := setKey frameId controls st.frameControls }
                    match nextEvent (some .mappingEnd) st with
                    | (Option.none, st) => (false, st)
                    | (some _, st) => (true, st)

/-- The `while (1)` loop of `CaptureScript::parseFrames`: parse frame
entries until the sequence's `sequence-end`. -/
def parseFramesLoop (catalog : Catalog) (fuel : Nat) (st : PState) :
    Bool × PState :=
  match fuel with
  | 0 => (false, st)
  | fuel + 1 =>
      match nextEvent Option.none st with
      | (Option.none, st) => (false, st)
      | (some e, st) =>
          if e.kind = .sequenceEnd then (true, st)
          else
            match parseFrame catalog fuel e st with
            | (true, st) => parseFramesLoop catalog fuel st
            | (false, st) => (false, st)

/-- `CaptureScript::parseFrames()`: expect the sequence's
`sequence-start`, then the frame loop. -/
def parseFrames (catalog : Catalog) (fuel : Nat) (st : PState) :
    Bool × PState :=
  match nextEvent (some .sequenceStart) st with
  | (Option.none, st) => (false, st)
  | (some _, st) => parseFramesLoop catalog fuel st

/-- The `while (1)` loop of `CaptureScript::parseScript`: read section
keys of the top-level mapping until its `mapping-end`.  The source
discards the value `parseFrames()` returns (line 153 of
`capture_script.cpp`), so the loop continues even after a failure
inside the frames section — the model reproduces this faithfully. -/
def parseScriptLoop (catalog : Catalog) (fuel : Nat) (st : PState) :
    Bool × PState :=
  match fuel with
  | 0 => (false, st)
  | fuel + 1 =>
      match nextEvent Option.none st with
      | (Option.none, st) => (false, st)
      | (some e, st) =>
          if e.kind = .mappingEnd then (true, st)
          else
            match checkEvent e .scalar st with
            | (false, st) => (false, st)
            | (true, st) =>
                let sectionName := eventScalarValue e
                if sectionName = "frames" then
                  match parseFrames catalog fuel st with
                  | (_, st) => parseScriptLoop catalog fuel st
                else (false, addDiag (.unsupportedSection sectionName) st)

/-- `CaptureScript::parseScript(script)`: expect `stream-start`,
`document-start` and the top-level `mapping-start`, then the section
loop.  (`yaml_parser_initialize` is assumed to succeed.) -/
def parseScript (catalog : Catalog) (fuel : Nat) (st : PState) :
    Bool × PState :=
  match nextEvent (some .streamStart) st with
  | (Option.none, st) => (false, st)
  | (some _, st) =>
      match nextEvent (some .documentStart) st with
      | (Option.none, st) => (false, st)
      | (some _, st) =>
          match nextEvent (some .mappingStart) st with
          | (Option.none, st) => (false, st)
          | (some _, st) => parseScriptLoop catalog fuel st

/-- The constructor's parsing pass: build the name catalog (supplied
here as `catalog`), run `parseScript` over the event stream, starting
from an empty diagnostics transcript and an empty `frameControls_`
table.  The `Bool` component is `valid_` (`parseScript` returned 0). -/
def run (catalog : Catalog) (events : List YEvent) : Bool × PState :=
  parseScript catalog (events.length + 1) ⟨events, [], []⟩

/-- `CaptureScript::isValid()`. -/
def isValid (catalog : Catalog) (events : List YEvent) : Bool :=
  (run catalog events).1

/-! ### Well-typedness of decoded values (for the C3 invariant) -/

/-- The occupied variant of `v` matches the declared type `t`, with the
machine range of the payload. -/
def variantMatches : ControlValue → ControlType → Prop
  | .bool _, .bool => True
  | .byte n, .byte => n < 2 ^ 8
  | .int32 i, .int32 => -(2 ^ 31) ≤ i ∧ i < 2 ^ 31
  | .int64 i, .int64 => -(2 ^ 63) ≤ i ∧ i < 2 ^ 63
  | .float _, .float => True
  | .string _, .string => True
  | _, _ => False

/-- A decoded value is either empty or of the declared type. -/
def GoodVal (v : ControlValue) (t : ControlType) : Prop :=
  v = .empty ∨ variantMatches v t

/-- Every entry of a control list is keyed by the id of some catalog
control and holds a value well-typed for that control. -/
def GoodSet (catalog : Catalog) (cs : ControlList) : Prop :=
  ∀ p ∈ cs, ∃ nm cid, lookupName nm catalog = some cid ∧
    cid.id = p.1 ∧ GoodVal p.2 cid.type

/-- Every control list stored in the frame table is good. -/
def GoodTable (catalog : Catalog) (tbl : FrameTable) : Prop :=
  ∀ q ∈ tbl, GoodSet catalog q.2

/-! ### Spec-side decimal literal semantics (for C5) -/

/-- The integer value of `s` when `s` is exactly an optional sign
followed by one or more decimal digits, `none` otherwise. -/
def decIntLitValue (s : String) : Option Int :=
  match s.toList with
  | [] => Option.none
  | c :: rest =>
      if c = '-' then
        (if rest ≠ [] ∧ rest.all Char.isDigit then
          some (-(digitsToNat rest : Int)) else Option.none)
      else if c = '+' then
        (if rest ≠ [] ∧ rest.all Char.isDigit then
          some (digitsToNat rest : Int) else Option.none)
      else
        (if (c :: rest).all Char.isDigit then
          some (digitsToNat (c :: rest) : Int) else Option.none)

/-- Unsigned part of a float literal: digits, optionally a point and
more digits, at least one digit in total; the exact rational value. -/
def floatLitMag (ds : List Char) : Option Rat :=
  let ip := ds.takeWhile Char.isDigit
  match ds.dropWhile Char.isDigit with
  | [] => if ip = [] then Option.none else some (digitsToNat ip : Rat)
  | c :: rest =>
      if c = '.' then
        (if rest.all Char.isDigit ∧ ¬(ip = [] ∧ rest = []) then
          some ((digitsToNat ip : Rat) + fracVal rest)
         else Option.none)
      else Option.none

/-- The rational value of `s` when `s` is exactly an optional sign,
decimal digits, and optionally a point followed by decimal digits (at
least one digit in total), `none` otherwise. -/
def decFloatLitValue (s : String) : Option Rat :=
  match s.toList with
  | [] => Option.none
  | c :: rest =>
      if c = '-' then (floatLitMag rest).map (fun q => -q)
      else if c = '+' then floatLitMag rest
      else floatLitMag (c :: rest)

/-- Strip one leading sign character. -/
def stripSignChars (cs : List Char) : List Char :=
  match cs with
  | [] => []
  | c :: rest =>
      if c = '-' then rest else if c = '+' then rest else c :: rest

/-- After the optional sign, `cs` starts with no digit and no point
followed by a digit. -/
def noNumber (cs : List Char) : Bool :=
  match cs with
  | [] => true
  | c :: rest =>
      if c = '.' then (rest.takeWhile Char.isDigit).isEmpty
      else ((c :: rest).takeWhile Char.isDigit).isEmpty

/-- `s` holds no number for `strtol`/`strtof`: after leading whitespace
and an optional sign there is no digit, and no point followed by a
digit. -/
def nonNumericText (s : String) : Bool :=
  noNumber (stripSignChars (s.toList.dropWhile Char.isWhitespace))

/-! ### Sample catalog and event streams used by concrete theorems -/

/-- A byte-typed control named `brightness`, id 1. -/
def brightnessId : ControlId := ⟨1, "brightness", .byte⟩

/-- A catalog holding only `brightness`. -/
def sampleCatalog : Catalog := [("brightness", brightnessId)]

/-- Event stream of a script whose first frame parses fine and whose
second frame uses the unknown control `badctl` with value text
`frames`. -/
def unknownControlEvents : List YEvent :=
  [.streamStart, .documentStart, .mappingStart, .scalar "frames",
   .sequenceStart,
     .mappingStart, .scalar "0", .mappingStart,
       .scalar "brightness", .scalar "10",
     .mappingEnd, .mappingEnd,
     .mappingStart, .scalar "1", .mappingStart,
       .scalar "badctl", .scalar "frames",
     .mappingEnd, .mappingEnd,
   .sequenceEnd, .mappingEnd, .documentEnd, .streamEnd]

/-- Event stream of a script whose single frame mapping is closed by a
`sequence-end` instead of the expected `mapping-end`. -/
def badFrameCloseEvents : List YEvent :=
  [.streamStart, .documentStart, .mappingStart, .scalar "frames",
   .sequenceStart,
     .mappingStart, .scalar "3", .mappingStart,
       .scalar "brightness", .scalar "7",
     .mappingEnd, .sequenceEnd,
   .mappingEnd, .documentEnd, .streamEnd]

/-- Event stream of a script whose top-level mapping holds the key
`frames` twice: the first section scripts frames 3 and 5, the second
scripts frame 3 again. -/
def dupFramesEvents (v1 v3 v2 : String) : List YEvent :=
  [.streamStart, .documentStart, .mappingStart,
   .scalar "frames",
   .sequenceStart,
     .mappingStart, .scalar "3", .mappingStart,
       .scalar "brightness", .scalar v1,
     .mappingEnd, .mappingEnd,
     .mappingStart, .scalar "5", .mappingStart,
       .scalar "brightness", .scalar v3,
     .mappingEnd, .mappingEnd,
   .sequenceEnd,
   .scalar "frames",
   .sequenceStart,
     .mappingStart, .scalar "3", .mappingStart,
       .scalar "brightness", .scalar v2,
     .mappingEnd, .mappingEnd,
   .sequenceEnd,
   .mappingEnd, .documentEnd, .streamEnd]

/-! ### Theorems -/

/-- C1: the claim says a control name absent from the catalog aborts the
entire parse, leaves the object invalid and makes no frame queryable.
The code contradicts this: `parseScript` discards the value returned by
`parseFrames()` (line 153), so the `-EINVAL` from the unknown control
`badctl` is lost; on this stream the parse then ends successfully at the
second frame's `mapping-end`, the object is valid, and the first frame
remains queryable. -/
theorem frames_failure_not_propagated :
    isValid sampleCatalog unknownControlEvents = true ∧
    Diag.unsupportedControl "badctl" ∈
      (run sampleCatalog unknownControlEvents).2.diags ∧
    frameControls (run sampleCatalog unknownControlEvents).2.frameControls 0 =
      [(1, ControlValue.byte 10)] := by
  decide

/-- C2 (counterexample): on `badFrameCloseEvents` the frame mapping of
frame 3 is closed by a `sequence-end`; the expected/actual diagnostic is
emitted, yet frame 3 with its decoded control *is* stored in the frame
table — refuting "a frame whose closing mapping-end is missing or of the
wrong kind is not stored in the FrameTable". -/
theorem frame_stored_despite_bad_close :
    Diag.expectedEvent YEventKind.mappingEnd YEventKind.sequenceEnd ∈
      (run sampleCatalog badFrameCloseEvents).2.diags ∧
    frameControls (run sampleCatalog badFrameCloseEvents).2.frameControls 3 =
      [(1, ControlValue.byte 7)] := by
  decide

/-- C2 (amended): after the controls mapping's mapping-end, `parseFrame`
first stores the accumulated control list at the frame index and only
then expects the frame mapping's closing mapping-end: the stored entry
is present in `frameControls_` whatever event (or end of stream)
follows, and `parseFrame` returns an error when that event is missing or
of the wrong kind. -/
theorem parseFrame_stores_before_close :
    ∀ (catalog : Catalog) (fuel : Nat) (key : String) (rest : List YEvent)
      (ds : List Diag) (tbl : FrameTable) (cs : ControlList) (st1 : PState),
      key ≠ "" →
      parseFrameLoop catalog fuel [] ⟨rest, ds, tbl⟩ = (true, cs, st1) →
      ((parseFrame catalog fuel .mappingStart
          ⟨.scalar key :: .mappingStart :: rest, ds, tbl⟩).2.frameControls =
        setKey (atoi key % 2 ^ 32).toNat cs st1.frameControls) ∧
      (∀ e rest', st1.events = e :: rest' → e.kind ≠ .mappingEnd →
        (parseFrame catalog fuel .mappingStart
          ⟨.scalar key :: .mappingStart :: rest, ds, tbl⟩).1 = false) ∧
      (st1.events = [] →
        (parseFrame catalog fuel .mappingStart
          ⟨.scalar key :: .mappingStart :: rest, ds, tbl⟩).1 = false) := by
  intro catalog fuel key rest ds tbl cs st1 hkey hloop
  rcases st1 with ⟨evs1, ds1, tbl1⟩
  cases evs1 with
  | nil =>
      refine ⟨?_, ?_, ?_⟩ <;>
        simp_all [parseFrame, parseScalar, nextEvent, checkEvent,
          eventScalarValue, YEvent.kind, addDiag]
  | cons e1 rest1 =>
      by_cases hk : e1.kind = YEventKind.mappingEnd
      · refine ⟨?_, ?_, ?_⟩ <;>
          simp_all [parseFrame, parseScalar, nextEvent, checkEvent,
            eventScalarValue, YEvent.kind, addDiag]
      · refine ⟨?_, ?_, ?_⟩ <;>
          simp_all [parseFrame, parseScalar, nextEvent, checkEvent,
            eventScalarValue, YEvent.kind, addDiag]

/-- Witness for `parseFrame_stores_before_close`: an empty controls
mapping for frame key `3` followed by end of stream — the frame is
stored although its closing mapping-end is missing, and `parseFrame`
fails. -/
theorem parseFrame_stores_before_close_witness :
    (parseFrame sampleCatalog 1 .mappingStart
        ⟨[.scalar "3", .mappingStart, .mappingEnd], [], []⟩).2.frameControls =
      setKey 3 [] [] ∧
    (parseFrame sampleCatalog 1 .mappingStart
        ⟨[.scalar "3", .mappingStart, .mappingEnd], [], []⟩).1 = false := by
  have h := parseFrame_stores_before_close sampleCatalog 1 "3" [.mappingEnd]
    [] [] [] ⟨[], [], []⟩ (by decide) (by decide)
  refine ⟨?_, h.2.2 rfl⟩
  have h1 := h.1
  simpa using h1

/-- C7: `frameControls` never fails — a frame index with no entry in the
frame table yields the empty control list, and a scripted frame index
yields exactly the stored control list. -/
theorem frameControls_lookup :
    ∀ (tbl : FrameTable) (n : Nat),
      (lookupKey n tbl = Option.none → frameControls tbl n = []) ∧
      (∀ cs, lookupKey n tbl = some cs → frameControls tbl n = cs) := by
  intro tbl n
  refine ⟨fun h => ?_, fun cs h => ?_⟩ <;> simp [frameControls, h]

/-- Witness for `frameControls_lookup` at a concrete one-entry table. -/
theorem frameControls_lookup_witness :
    frameControls [(5, [(1, ControlValue.byte 2)])] 3 = [] ∧
    frameControls [(5, [(1, ControlValue.byte 2)])] 5 =
      [(1, ControlValue.byte 2)] :=
  ⟨(frameControls_lookup [(5, [(1, ControlValue.byte 2)])] 3).1 (by decide),
   (frameControls_lookup [(5, [(1, ControlValue.byte 2)])] 5).2 _ (by decide)⟩

/-- Helper: the top-mapping loop on a section key other than `frames`
returns the error at once with the unsupported-section diagnostic. -/
theorem parseScriptLoop_unsupported (catalog : Catalog) (fuel : Nat)
    (s : String) (rest : List YEvent) (ds : List Diag) (tbl : FrameTable)
    (hs : s ≠ "frames") :
    parseScriptLoop catalog (fuel + 1) ⟨.scalar s :: rest, ds, tbl⟩ =
      (false, ⟨rest, ds ++ [.unsupportedSection s], tbl⟩) := by
  simp [parseScriptLoop, nextEvent, checkEvent, eventScalarValue,
    YEvent.kind, addDiag, hs]

/-- C8: a top-level section key other than `frames` is a hard failure:
the section loop stops at once with the unsupported-section diagnostic,
and a script starting with such a key parses invalid with that
diagnostic reported. -/
theorem unsupported_section_aborts :
    ∀ (catalog : Catalog) (fuel : Nat) (s : String) (rest : List YEvent)
      (ds : List Diag) (tbl : FrameTable), s ≠ "frames" →
      parseScriptLoop catalog (fuel + 1) ⟨.scalar s :: rest, ds, tbl⟩ =
        (false, ⟨rest, ds ++ [.unsupportedSection s], tbl⟩) ∧
      isValid catalog
        (.streamStart :: .documentStart :: .mappingStart :: .scalar s :: rest)
        = false ∧
      .unsupportedSection s ∈
        (run catalog (.streamStart :: .documentStart :: .mappingStart ::
          .scalar s :: rest)).2.diags := by
  intro catalog fuel s rest ds tbl hs
  have h2 := parseScriptLoop_unsupported catalog (rest.length + 4) s rest
    [] [] hs
  have hrun : run catalog
      (.streamStart :: .documentStart :: .mappingStart :: .scalar s :: rest) =
      (false, ⟨rest, [Diag.unsupportedSection s], []⟩) := by
    show parseScriptLoop catalog ((rest.length + 4) + 1)
        ⟨.scalar s :: rest, [], []⟩ =
      (false, ⟨rest, [Diag.unsupportedSection s], []⟩)
    simpa using h2
  exact ⟨parseScriptLoop_unsupported catalog fuel s rest ds tbl hs,
    by simp [isValid, hrun], by simp [hrun]⟩

/-- Witness for `unsupported_section_aborts` at section key `shots`. -/
theorem unsupported_section_aborts_witness :
    isValid sampleCatalog
      [.streamStart, .documentStart, .mappingStart, .scalar "shots"] = false :=
  (unsupported_section_aborts sampleCatalog 0 "shots" [] [] [] (by decide)).2.1

/-- Helper: a decimal digit is neither a sign, nor a point, nor
whitespace. -/
theorem isDigit_facts (c : Char) (h : c.isDigit = true) :
    c ≠ '-' ∧ c ≠ '+' ∧ c ≠ '.' ∧ c.isWhitespace = false := by
  refine ⟨?_, ?_, ?_, ?_⟩
  · rintro rfl; exact absurd h (by decide)
  · rintro rfl; exact absurd h (by decide)
  · rintro rfl; exact absurd h (by decide)
  · rcases hw : c.isWhitespace
    · rfl
    · exfalso
      have hw' := hw
      simp [Char.isWhitespace] at hw'
      rcases hw' with ((rfl | rfl) | rfl) | rfl <;> exact absurd h (by decide)

/-- Helper: `takeWhile` keeps a list all of whose entries satisfy the
predicate. -/
theorem takeWhile_all {α : Type} {p : α → Bool} :
    ∀ (l : List α), (∀ c ∈ l, p c = true) → l.takeWhile p = l
  | [], _ => rfl
  | c :: rest, h => by
      rw [List.takeWhile_cons_of_pos (h c (by simp))]
      rw [takeWhile_all rest (fun d hd => h d (by simp [hd]))]

/-- Helper: `dropWhile` keeps a list whose `takeWhile` is empty. -/
theorem dropWhile_of_takeWhile_nil {α : Type} {p : α → Bool}
    {l : List α} (h : l.takeWhile p = []) : l.dropWhile p = l := by
  cases l with
  | nil => rfl
  | cons a r =>
      by_cases hp : p a
      · rw [List.takeWhile_cons_of_pos hp] at h
        exact absurd h (by simp)
      · exact List.dropWhile_cons_of_neg hp

/-- Helper: `noNumber` means the digit prefix is empty. -/
theorem noNumber_takeWhile_nil {cs : List Char} (h : noNumber cs = true) :
    cs.takeWhile Char.isDigit = [] := by
  cases cs with
  | nil => rfl
  | cons c rest =>
      by_cases hc : c = '.'
      · subst hc
        exact List.takeWhile_cons_of_neg (by decide)
      · have h' : (if c = '.' then (rest.takeWhile Char.isDigit).isEmpty
            else ((c :: rest).takeWhile Char.isDigit).isEmpty) = true := h
        rw [if_neg hc] at h'
        exact List.isEmpty_iff.mp h'

/-- C4: for a Bool-typed control, `unpackControl` decodes exactly
`"true"` to `true` and `"false"` to `false`; any other text decodes to
the empty value together with the `unpackFailure` diagnostic, and
`parseControl` still succeeds there, storing the empty value — the
failure does not abort the parse. -/
theorem bool_decode_roundtrip :
    ∀ (id : ControlId), id.type = .bool →
      unpackControl id "true" = (.bool true, Option.none) ∧
      unpackControl id "false" = (.bool false, Option.none) ∧
      (∀ repr, repr ≠ "true" → repr ≠ "false" →
        unpackControl id repr = (.empty, some (unpackFailure id repr))) ∧
      (∀ (catalog : Catalog) (name repr : String) (cs : ControlList)
        (rest : List YEvent) (ds : List Diag) (tbl : FrameTable),
        name ≠ "" → repr ≠ "" → repr ≠ "true" → repr ≠ "false" →
        lookupName name catalog = some id →
        parseControl catalog (.scalar name) cs ⟨.scalar repr :: rest, ds, tbl⟩ =
          (true, controlListSet cs id.id .empty,
           ⟨rest, ds ++ [unpackFailure id repr], tbl⟩)) := by
  intro id htype
  refine ⟨?_, ?_, ?_, ?_⟩
  · simp [unpackControl, htype]
  · simp [unpackControl, htype]
  · intro repr h1 h2
    simp [unpackControl, htype, h1, h2]
  · intro catalog name repr cs rest ds tbl hn hr h1 h2 hlk
    simp [parseControl, eventScalarValue, hn, hlk, parseScalar, nextEvent,
      checkEvent, YEvent.kind, hr, unpackControl, htype, h1, h2, addDiag]

/-- Witness for `bool_decode_roundtrip` on the Bool control `awb` and
the unsupported representation `maybe`. -/
theorem bool_decode_roundtrip_witness :
    unpackControl ⟨2, "awb", .bool⟩ "true" = (.bool true, Option.none) ∧
    parseControl [("awb", ⟨2, "awb", .bool⟩)] (.scalar "awb") []
      ⟨[.scalar "maybe"], [], []⟩ =
      (true, controlListSet [] 2 .empty,
       ⟨[], [unpackFailure ⟨2, "awb", .bool⟩ "maybe"], []⟩) := by
  have h := bool_decode_roundtrip ⟨2, "awb", .bool⟩ rfl
  exact ⟨h.1, h.2.2.2 [("awb", ⟨2, "awb", .bool⟩)] "awb" "maybe" [] [] [] []
    (by decide) (by decide) (by decide) (by decide) (by decide)⟩

/-- C6: `unpackControl` reports a diagnostic exactly for a Bool control
with an unsupported representation; Rectangle- and Size-typed controls
always decode to the empty value with no diagnostic; and whatever the
decode produced, `parseControl` succeeds and stores the decoded value,
so a Bool decode failure never aborts the parse. -/
theorem decode_failure_only_bool :
    ∀ (id : ControlId) (repr : String),
      ((unpackControl id repr).2 ≠ Option.none ↔
        (id.type = .bool ∧ repr ≠ "true" ∧ repr ≠ "false")) ∧
      (id.type = .rectangle ∨ id.type = .size →
        unpackControl id repr = (.empty, Option.none)) ∧
      (∀ (catalog : Catalog) (name : String) (cs : ControlList)
        (rest : List YEvent) (ds : List Diag) (tbl : FrameTable),
        name ≠ "" → repr ≠ "" → lookupName name catalog = some id →
        (parseControl catalog (.scalar name) cs
          ⟨.scalar repr :: rest, ds, tbl⟩).1 = true ∧
        (parseControl catalog (.scalar name) cs
          ⟨.scalar repr :: rest, ds, tbl⟩).2.1 =
          controlListSet cs id.id (unpackControl id repr).1) := by
  intro id repr
  refine ⟨?_, ?_, ?_⟩
  · obtain ⟨i, nm, t⟩ := id
    cases t <;> by_cases h1 : repr = "true" <;> by_cases h2 : repr = "false" <;>
      simp_all [unpackControl]
  · intro h
    rcases h with h | h <;> simp [unpackControl, h]
  · intro catalog name cs rest ds tbl hn hr hlk
    rcases hv : unpackControl id repr with ⟨val, d⟩
    cases d <;>
      exact ⟨by simp [parseControl, eventScalarValue, hn, hlk, parseScalar,
          nextEvent, checkEvent, YEvent.kind, hr, hv, addDiag],
        by simp [parseControl, eventScalarValue, hn, hlk, parseScalar,
          nextEvent, checkEvent, YEvent.kind, hr, hv, addDiag]⟩

/-- Witness for `decode_failure_only_bool`: a Rectangle control decodes
any text to empty, and `parseControl` succeeds on a failing Bool
decode. -/
theorem decode_failure_only_bool_witness :
    unpackControl ⟨3, "roi", .rectangle⟩ "anything" = (.empty, Option.none) ∧
    (parseControl [("awb", ⟨2, "awb", .bool⟩)] (.scalar "awb") []
      ⟨[.scalar "maybe"], [], []⟩).1 = true :=
  ⟨(decode_failure_only_bool ⟨3, "roi", .rectangle⟩ "anything").2.1
     (Or.inl rfl),
   ((decode_failure_only_bool ⟨2, "awb", .bool⟩ "maybe").2.2
     [("awb", ⟨2, "awb", .bool⟩)] "awb" [] [] [] []
     (by decide) (by decide) (by decide)).1⟩

/-- Helper: on a valid integer literal, `intCore` computes the
literal's value (whitespace never precedes it, the sign and digits are
consumed exactly). -/
theorem intCore_of_decIntLit {s : String} {v : Int}
    (h : decIntLitValue s = some v) :
    intCore (s.toList.dropWhile Char.isWhitespace) = v := by
  rcases hs : s.toList with _ | ⟨c, rest⟩
  · simp [decIntLitValue, show s.data = ([] : List Char) from hs] at h
  · have ht : s.toList = c :: rest := hs
    simp only [decIntLitValue, ht] at h
    by_cases h1 : c = '-'
    · rw [if_pos h1] at h
      by_cases hd : rest ≠ [] ∧ rest.all Char.isDigit
      · rw [if_pos hd] at h
        have hall : ∀ x ∈ rest, Char.isDigit x = true := by
          simpa using hd.2
        subst h1
        rw [List.dropWhile_cons_of_neg (by decide)]
        simp only [intCore, reduceIte]
        rw [takeWhile_all rest hall]
        exact Option.some.inj h
      · rw [if_neg hd] at h
        exact Option.noConfusion h
    · by_cases h2 : c = '+'
      · rw [if_neg h1, if_pos h2] at h
        by_cases hd : rest ≠ [] ∧ rest.all Char.isDigit
        · rw [if_pos hd] at h
          have hall : ∀ x ∈ rest, Char.isDigit x = true := by
            simpa using hd.2
          subst h2
          rw [List.dropWhile_cons_of_neg (by decide)]
          simp only [intCore, reduceIte]
          rw [takeWhile_all rest hall]
          exact Option.some.inj h
        · rw [if_neg hd] at h
          exact Option.noConfusion h
      · rw [if_neg h1, if_neg h2] at h
        by_cases hd : (c :: rest).all Char.isDigit
        · rw [if_pos hd] at h
          have hall : ∀ x ∈ c :: rest, Char.isDigit x = true := by
            simpa using hd
          have hfacts := isDigit_facts c (hall c (by simp))
          rw [List.dropWhile_cons_of_neg (by simp [hfacts.2.2.2])]
          simp only [intCore]
          rw [if_neg h1, if_neg h2, takeWhile_all (c :: rest) hall]
          exact Option.some.inj h
        · rw [if_neg hd] at h
          exact Option.noConfusion h

/-- Helper: `strtol` returns the exact value of a valid decimal integer
literal within the `long` range. -/
theorem strtol_of_decIntLit {s : String} {v : Int}
    (h : decIntLitValue s = some v) (h1 : -(2 ^ 63) ≤ v)
    (h2 : v ≤ 2 ^ 63 - 1) : strtol s = v := by
  unfold strtol
  rw [intCore_of_decIntLit h]
  omega

/-- Helper: on a valid float-literal magnitude, `floatMag` computes the
literal's value. -/
theorem floatMag_of_floatLitMag {ds : List Char} {q : Rat}
    (h : floatLitMag ds = some q) : floatMag ds = q := by
  simp only [floatLitMag] at h
  unfold floatMag
  rcases hdrop : ds.dropWhile Char.isDigit with _ | ⟨c, rest⟩ <;>
    rw [hdrop] at h
  · have h' : (if ds.takeWhile Char.isDigit = [] then Option.none
        else some (digitsToNat (ds.takeWhile Char.isDigit) : Rat)) =
        some q := h
    by_cases hip : ds.takeWhile Char.isDigit = []
    · rw [if_pos hip] at h'
      exact Option.noConfusion h'
    · rw [if_neg hip] at h'
      simp only [dotPart, if_neg hip]
      exact Option.some.inj h'
  · have h' : (if c = '.' then
        (if rest.all Char.isDigit ∧
            ¬(ds.takeWhile Char.isDigit = [] ∧ rest = []) then
          some ((digitsToNat (ds.takeWhile Char.isDigit) : Rat) +
            fracVal rest)
         else Option.none)
        else Option.none) = some q := h
    by_cases hc : c = '.'
    · rw [if_pos hc] at h'
      by_cases hcond : rest.all Char.isDigit ∧
          ¬(ds.takeWhile Char.isDigit = [] ∧ rest = [])
      · rw [if_pos hcond] at h'
        obtain ⟨hall, hne⟩ := hcond
        have hrest : rest.takeWhile Char.isDigit = rest :=
          takeWhile_all rest (by simpa using hall)
        subst hc
        simp only [dotPart, reduceIte, hrest]
        rw [if_neg hne]
        exact Option.some.inj h'
      · rw [if_neg hcond] at h'
        exact Option.noConfusion h'
    · rw [if_neg hc] at h'
      exact Option.noConfusion h'

/-- Helper: a float-literal magnitude starts with a digit or a
point. -/
theorem floatLitMag_head {c : Char} {rest : List Char} {q : Rat}
    (h : floatLitMag (c :: rest) = some q) :
    c.isDigit = true ∨ c = '.' := by
  by_cases hc : c.isDigit
  · exact Or.inl hc
  · right
    simp only [floatLitMag, List.takeWhile_cons_of_neg hc,
      List.dropWhile_cons_of_neg hc] at h
    by_cases hdot : c = '.'
    · exact hdot
    · rw [if_neg hdot] at h
      exact Option.noConfusion h

/-- Helper: `strtof` (exact-rational model) returns the exact value of
a valid decimal float literal. -/
theorem strtofQ_of_decFloatLit {s : String} {q : Rat}
    (h : decFloatLitValue s = some q) : strtofQ s = q := by
  rcases hs : s.toList with _ | ⟨c, rest⟩
  · simp [decFloatLitValue, show s.data = ([] : List Char) from hs] at h
  · simp only [decFloatLitValue, hs] at h
    unfold strtofQ
    rw [hs]
    by_cases h1 : c = '-'
    · subst h1
      rw [if_pos rfl] at h
      rcases hm : floatLitMag rest with _ | q0 <;> rw [hm] at h
      · exact Option.noConfusion h
      · have hq : -q0 = q := by simpa using h
        rw [List.dropWhile_cons_of_neg (by decide)]
        simp only [floatCore, if_pos rfl]
        rw [floatMag_of_floatLitMag hm]
        exact hq
    · by_cases h2 : c = '+'
      · subst h2
        rw [if_neg h1, if_pos rfl] at h
        rw [List.dropWhile_cons_of_neg (by decide)]
        simp only [floatCore, if_true]
        exact floatMag_of_floatLitMag h
      · rw [if_neg h1, if_neg h2] at h
        have hws : c.isWhitespace = false := by
          rcases floatLitMag_head h with hd | rfl
          · exact (isDigit_facts c hd).2.2.2
          · decide
        rw [List.dropWhile_cons_of_neg (by simp [hws])]
        simp only [floatCore]
        rw [if_neg h1, if_neg h2]
        exact floatMag_of_floatLitMag h

/-- Helper: a list with no leading number has float magnitude 0. -/
theorem floatMag_noNumber {cs : List Char} (h : noNumber cs = true) :
    floatMag cs = 0 := by
  have htw := noNumber_takeWhile_nil h
  unfold floatMag
  rw [htw, dropWhile_of_takeWhile_nil htw]
  cases cs with
  | nil => simp [dotPart]
  | cons c rest =>
      by_cases hc : c = '.'
      · subst hc
        have h' : (rest.takeWhile Char.isDigit).isEmpty = true := h
        simp [dotPart, List.isEmpty_iff.mp h']
      · simp [dotPart, hc]

/-- Helper: non-numeric text converts to integer 0. -/
theorem strtol_nonNumeric {s : String} (h : nonNumericText s = true) :
    strtol s = 0 := by
  unfold nonNumericText at h
  unfold strtol
  suffices hi : intCore (s.toList.dropWhile Char.isWhitespace) = 0 by
    rw [hi]; decide
  rcases hc : s.toList.dropWhile Char.isWhitespace with _ | ⟨c, rest⟩
  · simp [intCore]
  · rw [hc] at h
    simp only [stripSignChars] at h
    simp only [intCore]
    by_cases h1 : c = '-'
    · rw [if_pos h1] at h
      rw [if_pos h1, noNumber_takeWhile_nil h]
      simp [digitsToNat]
    · by_cases h2 : c = '+'
      · rw [if_neg h1, if_pos h2] at h
        rw [if_neg h1, if_pos h2, noNumber_takeWhile_nil h]
        simp [digitsToNat]
      · rw [if_neg h1, if_neg h2] at h
        rw [if_neg h1, if_neg h2, noNumber_takeWhile_nil h]
        simp [digitsToNat]

/-- Helper: non-numeric text converts to rational 0. -/
theorem strtofQ_nonNumeric {s : String} (h : nonNumericText s = true) :
    strtofQ s = 0 := by
  unfold nonNumericText at h
  unfold strtofQ
  rcases hc : s.toList.dropWhile Char.isWhitespace with _ | ⟨c, rest⟩
  · simp [floatCore]
  · rw [hc] at h
    simp only [stripSignChars] at h
    simp only [floatCore]
    by_cases h1 : c = '-'
    · rw [if_pos h1] at h
      rw [if_pos h1, floatMag_noNumber h]
      simp
    · by_cases h2 : c = '+'
      · rw [if_neg h1, if_pos h2] at h
        rw [if_neg h1, if_pos h2]
        exact floatMag_noNumber h
      · rw [if_neg h1, if_neg h2] at h
        rw [if_neg h1, if_neg h2]
        exact floatMag_noNumber h

/-- C5: for Byte, Int32 and Int64 controls, decoding a valid decimal
integer literal yields its exact value (Byte wrapping modulo 256 as the
conversion of the native parse result to 8-bit unsigned); for Float
controls, decoding a valid decimal float literal yields its exact value
(in the exact-rational model of `strtof`); and a non-numeric literal
decodes to the type's zero value with no diagnostic for all four
types. -/
theorem numeric_decode_exact :
    ∀ (id : ControlId) (s : String),
      (∀ v : Int, decIntLitValue s = some v →
        (id.type = .byte → -(2 ^ 63) ≤ v → v ≤ 2 ^ 63 - 1 →
          unpackControl id s = (.byte ((v % 256).toNat), Option.none)) ∧
        (id.type = .int32 → -(2 ^ 31) ≤ v → v < 2 ^ 31 →
          unpackControl id s = (.int32 v, Option.none)) ∧
        (id.type = .int64 → -(2 ^ 63) ≤ v → v ≤ 2 ^ 63 - 1 →
          unpackControl id s = (.int64 v, Option.none))) ∧
      (∀ q : Rat, decFloatLitValue s = some q → id.type = .float →
        unpackControl id s = (.float q, Option.none)) ∧
      (nonNumericText s = true →
        (id.type = .byte → unpackControl id s = (.byte 0, Option.none)) ∧
        (id.type = .int32 → unpackControl id s = (.int32 0, Option.none)) ∧
        (id.type = .int64 → unpackControl id s = (.int64 0, Option.none)) ∧
        (id.type = .float → unpackControl id s = (.float 0, Option.none))) := by
  intro id s
  refine ⟨?_, ?_, ?_⟩
  · intro v hv
    refine ⟨fun ht hl hu => ?_, fun ht hl hu => ?_, fun ht hl hu => ?_⟩
    · simp [unpackControl, ht, strtol_of_decIntLit hv hl hu]
    · have hw : wrap32 v = v := by unfold wrap32; omega
      simp [unpackControl, ht,
        strtol_of_decIntLit hv (by omega) (by omega), hw]
    · simp [unpackControl, ht, strtoll,
        strtol_of_decIntLit hv hl hu]
  · intro q hq ht
    simp [unpackControl, ht, strtofQ_of_decFloatLit hq]
  · intro hn
    have hz := strtol_nonNumeric hn
    have hzf := strtofQ_nonNumeric hn
    refine ⟨fun ht => ?_, fun ht => ?_, fun ht => ?_, fun ht => ?_⟩
    · simp [unpackControl, ht, hz]
    · simp [unpackControl, ht, hz, wrap32]
    · simp [unpackControl, ht, strtoll, hz]
    · simp [unpackControl, ht, hzf]

/-- Witness for `numeric_decode_exact`: an Int32 control decodes `-5`
exactly, a Float control decodes `2.5` exactly, and a non-numeric text
decodes to the Int32 zero. -/
theorem numeric_decode_exact_witness :
    unpackControl ⟨4, "exp", .int32⟩ "-5" = (.int32 (-5), Option.none) ∧
    unpackControl ⟨5, "gain", .float⟩ "3" = (.float (3 : Rat), Option.none) ∧
    unpackControl ⟨4, "exp", .int32⟩ "xyz" = (.int32 0, Option.none) := by
  have h1 := (numeric_decode_exact ⟨4, "exp", .int32⟩ "-5").1 (-5) (by decide)
  have h2 := (numeric_decode_exact ⟨5, "gain", .float⟩ "3").2.1
    (3 : Rat) (by decide) rfl
  have h3 := (numeric_decode_exact ⟨4, "exp", .int32⟩ "xyz").2.2 (by decide)
  exact ⟨h1.2.1 rfl (by decide) (by decide), h2, h3.2.1 rfl⟩

/-- C9: an empty scalar at the parsing interface is a hard failure:
`parseFrame` rejects an empty frame-index scalar, `parseControl`
rejects an empty control-name scalar and an empty value scalar (for a
control of any type, String included), while a non-empty non-numeric
frame-index scalar such as `abc` is accepted and stored as frame
index 0. -/
theorem empty_scalar_rejected :
    ∀ (catalog : Catalog) (fuel : Nat) (cs : ControlList) (st : PState)
      (rest : List YEvent) (ds : List Diag) (tbl : FrameTable),
      ((parseFrame catalog fuel .mappingStart
          ⟨.scalar "" :: rest, ds, tbl⟩).1 = false ∧
       (parseFrame catalog fuel .mappingStart
          ⟨.scalar "" :: rest, ds, tbl⟩).2 = ⟨rest, ds, tbl⟩) ∧
      parseControl catalog (.scalar "") cs st = (false, cs, st) ∧
      (∀ (name : String) (cid : ControlId), name ≠ "" →
        lookupName name catalog = some cid →
        parseControl catalog (.scalar name) cs ⟨.scalar "" :: rest, ds, tbl⟩ =
          (false, cs, ⟨rest, ds, tbl⟩)) ∧
      parseFrame catalog (fuel + 1) .mappingStart
        ⟨.scalar "abc" :: .mappingStart :: .mappingEnd :: .mappingEnd :: rest,
         ds, tbl⟩ =
        (true, ⟨rest, ds, setKey 0 [] tbl⟩) := by
  intro catalog fuel cs st rest ds tbl
  have habc : (atoi "abc" % (4294967296 : Int)).toNat = 0 := by decide
  refine ⟨⟨?_, ?_⟩, ?_, ?_, ?_⟩
  · simp [parseFrame, checkEvent, YEvent.kind, parseScalar, nextEvent,
      eventScalarValue]
  · simp [parseFrame, checkEvent, YEvent.kind, parseScalar, nextEvent,
      eventScalarValue]
  · simp [parseControl, eventScalarValue]
  · intro name cid hn hlk
    simp [parseControl, eventScalarValue, hn, hlk, parseScalar, nextEvent,
      checkEvent, YEvent.kind]
  · simp [parseFrame, checkEvent, YEvent.kind, parseScalar, nextEvent,
      eventScalarValue, parseFrameLoop, habc]

/-- Witness for `empty_scalar_rejected`: an empty value scalar for the
byte control `brightness` is rejected. -/
theorem empty_scalar_rejected_witness :
    parseControl sampleCatalog (.scalar "brightness") []
      ⟨[.scalar ""], [], []⟩ = (false, [], ⟨[], [], []⟩) :=
  (empty_scalar_rejected sampleCatalog 0 [] ⟨[], [], []⟩ [] [] []).2.2.1
    "brightness" brightnessId (by decide) (by decide)

/-- Helper: every value `unpackControl` returns is empty or of the
declared type (with its machine range). -/
theorem unpackControl_goodVal (id : ControlId) (repr : String) :
    GoodVal (unpackControl id repr).1 id.type := by
  obtain ⟨i, nm, t⟩ := id
  cases t with
  | none => exact Or.inl rfl
  | bool =>
      by_cases h1 : repr = "true"
      · simp [unpackControl, h1, GoodVal, variantMatches]
      · by_cases h2 : repr = "false" <;>
          simp [unpackControl, h1, h2, GoodVal, variantMatches]
  | byte =>
      right
      simp only [unpackControl, variantMatches]
      omega
  | int32 =>
      right
      simp only [unpackControl, variantMatches, wrap32]
      omega
  | int64 =>
      right
      simp only [unpackControl, variantMatches, strtoll, strtol]
      omega
  | float => exact Or.inr trivial
  | string => exact Or.inr trivial
  | rectangle => exact Or.inl rfl
  | size => exact Or.inl rfl

/-- Helper: `nextEvent` never changes the frame table. -/
theorem nextEvent_frameControls (k : Option YEventKind) (st : PState) :
    ((nextEvent k st).2).frameControls = st.frameControls := by
  rcases st with ⟨evs, ds, tbl⟩
  cases evs with
  | nil => cases k <;> rfl
  | cons e rest =>
      cases k with
      | none => rfl
      | some k' =>
          by_cases hk : e.kind = k'
          · simp [nextEvent, checkEvent, hk]
          · simp [nextEvent, checkEvent, hk, addDiag]

/-- Helper: `parseScalar` never changes the frame table. -/
theorem parseScalar_frameControls (st : PState) :
    ((parseScalar st).2).frameControls = st.frameControls := by
  have h0 := nextEvent_frameControls (some .scalar) st
  unfold parseScalar
  rcases h : nextEvent (some .scalar) st with ⟨e, st'⟩
  rw [h] at h0
  cases e <;> simpa using h0

/-- Helper: membership in `setKey` comes from the new pair or the old
list. -/
theorem setKey_mem {α : Type} (k : Nat) (v : α) :
    ∀ (l : List (Nat × α)) (p : Nat × α),
      p ∈ setKey k v l → p = (k, v) ∨ p ∈ l
  | [], p, hp => by
      simp [setKey] at hp
      exact Or.inl hp
  | (k', v') :: rest, p, hp => by
      simp only [setKey] at hp
      by_cases hk : k' = k
      · rw [if_pos hk] at hp
        rcases List.mem_cons.mp hp with h | h
        · exact Or.inl h
        · exact Or.inr (List.mem_cons_of_mem _ h)
      · rw [if_neg hk] at hp
        rcases List.mem_cons.mp hp with h | h
        · exact Or.inr (h ▸ List.mem_cons_self _ _)
        · rcases setKey_mem k v rest p h with h' | h'
          · exact Or.inl h'
          · exact Or.inr (List.mem_cons_of_mem _ h')

/-- Helper: storing a well-typed decoded value for a catalog control
keeps a control list good. -/
theorem goodSet_set {catalog : Catalog} {cs : ControlList} {nm : String}
    {cid : ControlId} {v : ControlValue} (hcs : GoodSet catalog cs)
    (hlk : lookupName nm catalog = some cid) (hv : GoodVal v cid.type) :
    GoodSet catalog (controlListSet cs cid.id v) := by
  intro p hp
  rcases setKey_mem cid.id v cs p hp with h | h
  · subst h
    exact ⟨nm, cid, hlk, rfl, hv⟩
  · exact hcs p h

/-- Helper: storing a good control list keeps the frame table good. -/
theorem goodTable_set {catalog : Catalog} {tbl : FrameTable} {k : Nat}
    {cs : ControlList} (htbl : GoodTable catalog tbl)
    (hcs : GoodSet catalog cs) :
    GoodTable catalog (setKey k cs tbl) := by
  intro q hq
  rcases setKey_mem k cs tbl q hq with h | h
  · subst h
    exact hcs
  · exact htbl q h

/-- Helper: `parseControl` only adds well-typed values for catalog
controls to the control list, and never touches the frame table. -/
theorem parseControl_good (catalog : Catalog) (e : YEvent)
    (cs : ControlList) (st : PState) (hcs : GoodSet catalog cs) :
    GoodSet catalog (parseControl catalog e cs st).2.1 ∧
    ((parseControl catalog e cs st).2.2).frameControls =
      st.frameControls := by
  by_cases hn : eventScalarValue e = ""
  · simp [parseControl, hn]
    exact hcs
  · rcases hlk : lookupName (eventScalarValue e) catalog with _ | cid
    · simp [parseControl, hn, hlk, addDiag]
      exact hcs
    · have hps := parseScalar_frameControls st
      rcases hp : parseScalar st with ⟨value, st'⟩
      rw [hp] at hps
      by_cases hv : value = ""
      · simp [parseControl, hn, hlk, hp, hv]
        exact ⟨hcs, hps⟩
      · have hgv := unpackControl_goodVal cid value
        rcases hu : unpackControl cid value with ⟨val, d⟩
        rw [hu] at hgv
        cases d with
        | none =>
            simp [parseControl, hn, hlk, hp, hv, hu]
            exact ⟨goodSet_set hcs hlk hgv, hps⟩
        | some d0 =>
            simp [parseControl, hn, hlk, hp, hv, hu, addDiag]
            exact ⟨goodSet_set hcs hlk hgv, hps⟩

/-- Helper: the controls loop of `parseFrame` keeps the control list
good and never touches the frame table. -/
theorem parseFrameLoop_good (catalog : Catalog) :
    ∀ (fuel : Nat) (cs : ControlList) (st : PState),
      GoodSet catalog cs →
      GoodSet catalog (parseFrameLoop catalog fuel cs st).2.1 ∧
      ((parseFrameLoop catalog fuel cs st).2.2).frameControls =
        st.frameControls := by
  intro fuel
  induction fuel with
  | zero => exact fun cs st hcs => ⟨hcs, rfl⟩
  | succ fuel ih =>
      intro cs st hcs
      have hne := nextEvent_frameControls Option.none st
      rcases hn : nextEvent Option.none st with ⟨e, st1⟩
      rw [hn] at hne
      cases e with
      | none =>
          simp [parseFrameLoop, hn]
          exact ⟨hcs, hne⟩
      | some e0 =>
          by_cases hk : e0.kind = YEventKind.mappingEnd
          · simp [parseFrameLoop, hn, hk]
            exact ⟨hcs, hne⟩
          · have hpc := parseControl_good catalog e0 cs st1 hcs
            rcases hc : parseControl catalog e0 cs st1 with ⟨b, cs2, st2⟩
            rw [hc] at hpc
            cases b with
            | false =>
                simp [parseFrameLoop, hn, hk, hc]
                exact ⟨hpc.1, hpc.2.trans hne⟩
            | true =>
                have hloop := ih cs2 st2 hpc.1
                simp [parseFrameLoop, hn, hk, hc]
                exact ⟨hloop.1, (hloop.2.trans hpc.2).trans hne⟩

/-- Helper: `parseFrame` keeps the frame table good. -/
theorem parseFrame_good (catalog : Catalog) (fuel : Nat) (e : YEvent)
    (st : PState) (htbl : GoodTable catalog st.frameControls) :
    GoodTable catalog ((parseFrame catalog fuel e st).2).frameControls := by
  by_cases hk : e.kind = YEventKind.mappingStart
  · have hps := parseScalar_frameControls st
    rcases hp : parseScalar st with ⟨key, st1⟩
    rw [hp] at hps
    by_cases hkey : key = ""
    · simp [parseFrame, checkEvent, hk, hp, hkey]
      rw [hps]
      exact htbl
    · have hne := nextEvent_frameControls (some .mappingStart) st1
      rcases hn : nextEvent (some .mappingStart) st1 with ⟨o, st2⟩
      rw [hn] at hne
      cases o with
      | none =>
          simp [parseFrame, checkEvent, hk, hp, hkey, hn]
          rw [hne, hps]
          exact htbl
      | some o0 =>
          have hloop := parseFrameLoop_good catalog fuel [] st2
            (fun p hp0 => absurd hp0 (List.not_mem_nil p))
          rcases hl : parseFrameLoop catalog fuel [] st2 with ⟨b, cs3, st3⟩
          rw [hl] at hloop
          cases b with
          | false =>
              simp [parseFrame, checkEvent, hk, hp, hkey, hn, hl]
              rw [hloop.2, hne, hps]
              exact htbl
          | true =>
              have htbl3 : GoodTable catalog st3.frameControls := by
                rw [hloop.2, hne, hps]
                exact htbl
              rcases st3 with ⟨evs3, ds3, tbl3⟩
              have hset := goodTable_set
                (k := (atoi key % 4294967296).toNat) htbl3 hloop.1
              have hne2 := nextEvent_frameControls
                (some YEventKind.mappingEnd)
                ⟨evs3, ds3, setKey (atoi key % 4294967296).toNat cs3 tbl3⟩
              rcases hn2 : nextEvent (some YEventKind.mappingEnd)
                  ⟨evs3, ds3, setKey (atoi key % 4294967296).toNat cs3 tbl3⟩
                with ⟨o2, st4⟩
              rw [hn2] at hne2
              have hres : GoodTable catalog st4.frameControls := by
                rw [hne2]
                exact hset
              cases o2 with
              | none =>
                  simp [parseFrame, checkEvent, hk, hp, hkey, hn, hl, hn2]
                  exact hres
              | some o3 =>
                  simp [parseFrame, checkEvent, hk, hp, hkey, hn, hl, hn2]
                  exact hres
  · simp [parseFrame, checkEvent, hk, addDiag]
    exact htbl

/-- Helper: the frames-sequence loop keeps the frame table good. -/
theorem parseFramesLoop_good (catalog : Catalog) :
    ∀ (fuel : Nat) (st : PState),
      GoodTable catalog st.frameControls →
      GoodTable catalog
        ((parseFramesLoop catalog fuel st).2).frameControls := by
  intro fuel
  induction fuel with
  | zero => exact fun st htbl => htbl
  | succ fuel ih =>
      intro st htbl
      have hne := nextEvent_frameControls Option.none st
      rcases hn : nextEvent Option.none st with ⟨e, st1⟩
      rw [hn] at hne
      cases e with
      | none =>
          simp [parseFramesLoop, hn]
          rw [hne]
          exact htbl
      | some e0 =>
          have htbl1 : GoodTable catalog st1.frameControls := by
            rw [hne]; exact htbl
          by_cases hk : e0.kind = YEventKind.sequenceEnd
          · simp [parseFramesLoop, hn, hk]
            rw [hne]
            exact htbl
          · have hpf := parseFrame_good catalog fuel e0 st1 htbl1
            rcases hf : parseFrame catalog fuel e0 st1 with ⟨b, st2⟩
            rw [hf] at hpf
            cases b with
            | false =>
                simp [parseFramesLoop, hn, hk, hf]
                exact hpf
            | true =>
                simp [parseFramesLoop, hn, hk, hf]
                exact ih st2 hpf

/-- Helper: `parseFrames` keeps the frame table good. -/
theorem parseFrames_good (catalog : Catalog) (fuel : Nat) (st : PState)
    (htbl : GoodTable catalog st.frameControls) :
    GoodTable catalog ((parseFrames catalog fuel st).2).frameControls := by
  have hne := nextEvent_frameControls (some .sequenceStart) st
  rcases hn : nextEvent (some .sequenceStart) st with ⟨o, st1⟩
  rw [hn] at hne
  have htbl1 : GoodTable catalog st1.frameControls := by
    rw [hne]; exact htbl
  cases o with
  | none =>
      simp [parseFrames, hn]
      exact htbl1
  | some o0 =>
      simp [parseFrames, hn]
      exact parseFramesLoop_good catalog fuel st1 htbl1

/-- Helper: the top-mapping loop keeps the frame table good. -/
theorem parseScriptLoop_good (catalog : Catalog) :
    ∀ (fuel : Nat) (st : PState),
      GoodTable catalog st.frameControls →
      GoodTable catalog
        ((parseScriptLoop catalog fuel st).2).frameControls := by
  intro fuel
  induction fuel with
  | zero => exact fun st htbl => htbl
  | succ fuel ih =>
      intro st htbl
      have hne := nextEvent_frameControls Option.none st
      rcases hn : nextEvent Option.none st with ⟨e, st1⟩
      rw [hn] at hne
      have htbl1 : GoodTable catalog st1.frameControls := by
        rw [hne]; exact htbl
      cases e with
      | none =>
          simp [parseScriptLoop, hn]
          exact htbl1
      | some e0 =>
          by_cases hk : e0.kind = YEventKind.mappingEnd
          · simp [parseScriptLoop, hn, hk]
            exact htbl1
          · by_cases hs : e0.kind = YEventKind.scalar
            · by_cases hsec : eventScalarValue e0 = "frames"
              · have hpf := parseFrames_good catalog fuel st1 htbl1
                rcases hf : parseFrames catalog fuel st1 with ⟨b, st2⟩
                rw [hf] at hpf
                simp [parseScriptLoop, hn, hk, checkEvent, hs, hsec, hf]
                exact ih st2 hpf
              · simp [parseScriptLoop, hn, hk, checkEvent, hs, hsec,
                  addDiag]
                exact htbl1
            · simp [parseScriptLoop, hn, hk, checkEvent, hs, addDiag]
              exact htbl1

/-- Helper: `parseScript` keeps the frame table good. -/
theorem parseScript_good (catalog : Catalog) (fuel : Nat) (st : PState)
    (htbl : GoodTable catalog st.frameControls) :
    GoodTable catalog ((parseScript catalog fuel st).2).frameControls := by
  have h1 := nextEvent_frameControls (some .streamStart) st
  rcases hn1 : nextEvent (some .streamStart) st with ⟨o1, st1⟩
  rw [hn1] at h1
  have htbl1 : GoodTable catalog st1.frameControls := by
    rw [h1]; exact htbl
  cases o1 with
  | none =>
      simp [parseScript, hn1]
      exact htbl1
  | some e1 =>
      have h2 := nextEvent_frameControls (some .documentStart) st1
      rcases hn2 : nextEvent (some .documentStart) st1 with ⟨o2, st2⟩
      rw [hn2] at h2
      have htbl2 : GoodTable catalog st2.frameControls := by
        rw [h2]; exact htbl1
      cases o2 with
      | none =>
          simp [parseScript, hn1, hn2]
          exact htbl2
      | some e2 =>
          have h3 := nextEvent_frameControls (some .mappingStart) st2
          rcases hn3 : nextEvent (some .mappingStart) st2 with ⟨o3, st3⟩
          rw [hn3] at h3
          have htbl3 : GoodTable catalog st3.frameControls := by
            rw [h3]; exact htbl2
          cases o3 with
          | none =>
              simp [parseScript, hn1, hn2, hn3]
              exact htbl3
          | some e3 =>
              simp [parseScript, hn1, hn2, hn3]
              exact parseScriptLoop_good catalog fuel st3 htbl3

/-- C3: the value decoder returns either the empty value or a value
whose occupied variant matches the declared type of the control it
decoded for (Bool a bool, Byte an 8-bit unsigned integer, Int32 a
32-bit signed integer, Int64 a 64-bit signed integer, Float a float,
String a string), and consequently every value stored in every control
set of the frame table built by a parse is empty or matches the type of
the catalog control whose id it is stored under. -/
theorem decoded_values_well_typed :
    (∀ (id : ControlId) (repr : String),
      GoodVal (unpackControl id repr).1 id.type) ∧
    (∀ (catalog : Catalog) (events : List YEvent),
      GoodTable catalog ((run catalog events).2).frameControls) := by
  refine ⟨unpackControl_goodVal, fun catalog events => ?_⟩
  exact parseScript_good catalog (events.length + 1) ⟨events, [], []⟩
    (fun q hq => absurd hq (List.not_mem_nil q))

/-- C10: a script with two `frames` sections is not rejected: both
sequences are parsed, their frame entries accumulate into the same
frame table, and the later entry for frame 3 overwrites the earlier one
(last write wins) while frame 5 from the first section is kept. -/
theorem duplicate_frames_last_write_wins :
    ∀ (v1 v3 v2 : String), v1 ≠ "" → v3 ≠ "" → v2 ≠ "" →
      isValid sampleCatalog (dupFramesEvents v1 v3 v2) = true ∧
      frameControls
        ((run sampleCatalog (dupFramesEvents v1 v3 v2)).2).frameControls 3 =
        [(1, .byte ((strtol v2 % 256).toNat))] ∧
      frameControls
        ((run sampleCatalog (dupFramesEvents v1 v3 v2)).2).frameControls 5 =
        [(1, .byte ((strtol v3 % 256).toNat))] := by
  intro v1 v3 v2 h1 h3 h2
  have hk3 : (atoi "3" % (4294967296 : Int)).toNat = 3 := by decide
  have hk5 : (atoi "5" % (4294967296 : Int)).toNat = 5 := by decide
  refine ⟨?_, ?_, ?_⟩ <;>
    simp [isValid, run, dupFramesEvents, parseScript, parseScriptLoop,
      parseFrames, parseFramesLoop, parseFrame, parseFrameLoop,
      parseControl, parseScalar, nextEvent, checkEvent, eventScalarValue,
      YEvent.kind, addDiag, sampleCatalog, brightnessId, lookupName,
      unpackControl, controlListSet, setKey, frameControls, lookupKey,
      hk3, hk5, h1, h2, h3]

/-- Witness for `duplicate_frames_last_write_wins` at the value texts
`10`, `30`, `20`. -/
theorem duplicate_frames_last_write_wins_witness :
    isValid sampleCatalog (dupFramesEvents "10" "30" "20") = true ∧
    frameControls
      ((run sampleCatalog (dupFramesEvents "10" "30" "20")).2).frameControls 3
      = [(1, .byte ((strtol "20" % 256).toNat))] :=
  ⟨(duplicate_frames_last_write_wins "10" "30" "20"
      (by decide) (by decide) (by decide)).1,
   (duplicate_frames_last_write_wins "10" "30" "20"
      (by decide) (by decide) (by decide)).2.1⟩

end CaptureScript
